import Mathlib

/-!
Verification of the quotes-exporter core: a shallow embedding of the
request-scoped quote-collection pipeline (symbol resolver, memoizing cache,
quote collector, accounting registers) together with the `stonks` quote
source and the legacy WorldTradingData JSON decoding, plus theorems settling
the specification's claims about them.

Strings from the Go source are modelled as `List Char` (`Str`), Go `float64`
values as exact rationals `ℚ` (documented per definition where rounding or
the special values `inf`/`nan` would matter), and Go `int64` as `ℤ`.
-/

namespace QuotesExporter

/-- Go strings, modelled as lists of characters. -/
abbrev Str := List Char

/-- Convenience: a `Str` from a Lean string literal. -/
def str (s : String) : Str := s.data

/-! ## String helpers mirroring the Go standard library -/

/-- `strings.Split(s, sep)` for a one-character separator: splits around each
occurrence of `sep`; for the empty string it returns `[[]]`, exactly as Go
returns a one-element slice holding the empty string. -/
def splitChar (sep : Char) : Str → List Str
  | [] => [[]]
  | c :: rest =>
    if c = sep then [] :: splitChar sep rest
    else
      match splitChar sep rest with
      | [] => [[c]]
      | t :: ts => (c :: t) :: ts

/-- `splitChar` never returns the empty list (Go's `strings.Split` never
returns an empty slice for a nonempty separator). -/
theorem splitChar_ne_nil (sep : Char) (s : Str) : splitChar sep s ≠ [] := by
  induction s with
  | nil => simp [splitChar]
  | cons c rest ih =>
    by_cases h : c = sep
    · simp [splitChar, h]
    · simp only [splitChar, if_neg h]
      cases hs : splitChar sep rest with
      | nil => simp
      | cons t ts => simp

/-- The number of fields returned by `splitChar` is one more than the number
of separator occurrences. -/
theorem splitChar_length (sep : Char) (s : Str) :
    (splitChar sep s).length = s.count sep + 1 := by
  induction s with
  | nil => simp [splitChar]
  | cons c rest ih =>
    by_cases h : c = sep
    · subst h
      simp [splitChar, List.count_cons, ih]
    · simp only [splitChar, if_neg h]
      cases hs : splitChar sep rest with
      | nil => exact absurd hs (splitChar_ne_nil sep rest)
      | cons t ts =>
        have := ih
        rw [hs] at this
        simp only [List.length_cons] at this ⊢
        have hcount : (c :: rest).count sep = rest.count sep := by
          simp [List.count_cons, h]
        omega

/-! ## Symbol Resolver (`newCollector`, src/collector.go)

`newCollector` receives the request URL; the part it reads is
`url.Query()["symbols"]`, which is absent (`none`) when the parameter does
not occur in the query, and otherwise the nonempty list of raw occurrence
values (an occurrence with an empty value contributes the empty string).
Each occurrence is comma-split and all pieces are appended in order. -/

/-- Embedding of `newCollector` from src/collector.go: fails when the
`symbols` parameter is absent, otherwise comma-splits every occurrence and
concatenates the pieces (the Go `for` loop appending `strings.Split(qvalue, ",")...`
is the join of the per-occurrence splits). -/
def newCollector (qsymbols : Option (List Str)) : Except Str (List Str) :=
  match qsymbols with
  | none => Except.error (str "missing symbols in query")
  | some qvalues => Except.ok ((qvalues.map (splitChar ',')).flatten)

/-! ## Request handler guard (`getQuote`/`queryType`, src/main.go) -/

/-- `assetTypeStock` constant from src/main.go (`iota` = 0). -/
def assetTypeStock : ℕ := 0

/-- `assetTypeMutualFund` constant from src/main.go (`iota` = 1). -/
def assetTypeMutualFund : ℕ := 1

/-- Embedding of `queryType` from src/main.go: matches the URL path against
the fixed handlers `/stocks` and `/funds`. The Go code ranges over a map, but
the two prefixes are mutually exclusive so iteration order is immaterial. -/
def queryType (path : Str) : Except Str ℕ :=
  if (str "/stocks").isPrefixOf path then Except.ok assetTypeStock
  else if (str "/funds").isPrefixOf path then Except.ok assetTypeMutualFund
  else Except.error (str "unknown path")

/-- Outcome of the `getQuote` HTTP handler: either it returns early
(no registry is created, the collector is never invoked and no metric body is
produced) or it registers a collector over the given symbols and serves the
scrape (which invokes `Collect` and produces a metric body). -/
inductive HandlerOutcome where
  | rejected
  | served (symbols : List Str) (qtype : ℕ)
  deriving DecidableEq, Repr

/-- Embedding of the guard logic of `getQuote` from src/main.go: resolve the
asset type from the path, then read `Query()["symbols"]`; when the key is
absent (`ok == false`) the handler returns before any collector exists. -/
def getQuote (path : Str) (query : Option (List Str)) : HandlerOutcome :=
  match queryType path with
  | Except.error _ => HandlerOutcome.rejected
  | Except.ok qtype =>
    match query with
    | none => HandlerOutcome.rejected
    | some symbols => HandlerOutcome.served symbols qtype

/-! ## Claim C3 -/

/-- Claim C3: for every valid `symbols` input containing at least one symbol,
the Resolver succeeds and produces the concatenation, in order and with
duplicates preserved, of the comma-splits of all occurrences; in particular
the symbol count equals the total number of comma/repetition-separated
entries supplied (each occurrence contributes its comma count plus one). -/
theorem newCollector_entry_count (vs : List Str) (hne : vs ≠ []) :
    newCollector (some vs) = Except.ok ((vs.map (splitChar ',')).flatten) ∧
    ((vs.map (splitChar ',')).flatten).length =
      (vs.map (fun v => v.count ',' + 1)).sum := by
  refine ⟨rfl, ?_⟩
  rw [List.length_flatten, List.map_map]
  have hfun : (List.length ∘ splitChar ',') = fun v : Str => v.count ',' + 1 := by
    funext v
    simp [Function.comp, splitChar_length]
  rw [hfun]

/-- Witness for C3 at a mixed input (`symbols=AAA,BBB&symbols=CCC`): two
occurrences, three entries. -/
theorem newCollector_entry_count_witness :
    [str "AAA,BBB", str "CCC"] ≠ ([] : List Str) ∧
    (newCollector (some [str "AAA,BBB", str "CCC"]) =
        Except.ok (([str "AAA,BBB", str "CCC"].map (splitChar ',')).flatten) ∧
      (([str "AAA,BBB", str "CCC"].map (splitChar ',')).flatten).length =
        ([str "AAA,BBB", str "CCC"].map (fun v => v.count ',' + 1)).sum) :=
  ⟨by decide, newCollector_entry_count _ (by decide)⟩

/-! ## Claim C4 -/

/-- Claim C4 (amended): when the `symbols` parameter is absent from the
query, the Resolver fails with the malformed-request error, and the HTTP
handler returns before any collector is created: the Collector is never
invoked and no metric body is produced. (A present-but-empty parameter is
accepted; see the counterexample.) -/
theorem missing_symbols_rejected (path : Str) :
    newCollector none = Except.error (str "missing symbols in query") ∧
    getQuote path none = HandlerOutcome.rejected := by
  refine ⟨rfl, ?_⟩
  unfold getQuote
  rcases hq : queryType path with e | qt <;> simp [hq]

/-- Witness for C4 (amended) at the concrete path `/stocks`. -/
theorem missing_symbols_rejected_witness :
    newCollector none = Except.error (str "missing symbols in query") ∧
    getQuote (str "/stocks") none = HandlerOutcome.rejected :=
  missing_symbols_rejected (str "/stocks")

/-- Counterexample to C4 as stated: a request carrying an *empty* `symbols`
value (`?symbols=`) reaches the resolver as `some [""]`; the Resolver
succeeds with a single empty symbol and the handler registers the collector
and serves the scrape, so the Collector *is* invoked and a metric body *is*
produced. -/
theorem empty_symbols_accepted :
    newCollector (some [([] : Str)]) = Except.ok [([] : Str)] ∧
    getQuote (str "/stocks") (some [([] : Str)]) =
      HandlerOutcome.served [([] : Str)] assetTypeStock :=
  ⟨rfl, rfl⟩

/-! ## Quote Collector (`Collect`, src/collector.go)

`Collect` increments the query counter once, then iterates over the symbols.
For each symbol it measures the wall-clock duration of the
`cache.Memoize(symbol, cachedFetcher)` call and feeds it to the latency
summary before any error check. The lookup outcome is abstracted as a
function from symbol to `Lookup`: the `result` field covers the three error
branches of the Go code (`err != nil`, a cache value that is not a
`*finance.Quote`, and a nil quote pointer) and the success branch; `cached`
is the memoizer's third return value (used only for logging); `dur` is the
elapsed wall-clock seconds observed for this lookup. On any of the three
error branches the Go code increments the failure counter and `return`s,
abandoning the remaining symbols. -/

/-- The fields of `finance.Quote` read by `Collect`: symbol, short name,
regular market price (`float64`, modelled as `ℚ`) and regular market volume
(`int64`, modelled as `ℤ`). -/
structure Quote where
  symbol : Str
  shortName : Str
  regularMarketPrice : ℚ
  regularMarketVolume : ℤ
  deriving DecidableEq, Repr

/-- Outcome of `cache.Memoize(symbol, cachedFetcher)` followed by the type
assertion and nil check in `Collect`. -/
inductive FetchResult where
  | fail
  | notQuote
  | nilQuote
  | ok (q : Quote)
  deriving DecidableEq, Repr

/-- One observed cache lookup: its outcome, whether it was served from the
cache, and its caller-observed wall-clock duration in seconds. -/
structure Lookup where
  result : FetchResult
  cached : Bool
  dur : ℚ
  deriving DecidableEq, Repr

/-- A metric sample sent on the output channel: a price gauge or a volume
gauge, labelled by `(symbol, name)` taken verbatim from the quote. -/
inductive Sample where
  | price (symbol shortName : Str) (value : ℚ)
  | volume (symbol shortName : Str) (value : ℤ)
  deriving DecidableEq, Repr

/-- Effects of one `Collect` run beyond the single query-counter increment:
failure-counter increments, latency observations (in order), and emitted
samples (in order). -/
structure CollectOut where
  errorIncs : ℕ
  durObs : List ℚ
  samples : List Sample
  deriving DecidableEq, Repr

/-- The symbol loop of `Collect` (src/collector.go): per symbol, observe the
lookup duration, then on error increment the failure counter and `return`
(dropping the remaining symbols); on success emit the price sample and, when
the volume flag is set, the volume sample, then continue with the rest. -/
def collectLoop (vol : Bool) (fetch : Str → Lookup) : List Str → CollectOut
  | [] => ⟨0, [], []⟩
  | sym :: rest =>
    let lk := fetch sym
    match lk.result with
    | FetchResult.ok q =>
      let tail := collectLoop vol fetch rest
      ⟨tail.errorIncs, lk.dur :: tail.durObs,
        Sample.price q.symbol q.shortName q.regularMarketPrice ::
          (if vol then Sample.volume q.symbol q.shortName q.regularMarketVolume :: tail.samples
           else tail.samples)⟩
    | _ => ⟨1, [lk.dur], []⟩

/-- Embedding of `Collect` (src/collector.go): one query-counter increment
per invocation, then the symbol loop. -/
def collect (vol : Bool) (fetch : Str → Lookup) (syms : List Str) : ℕ × CollectOut :=
  (1, collectLoop vol fetch syms)

/-! ## Claim C1 -/

/-- A concrete lookup environment for C1: symbol `BBB` fails, every other
symbol succeeds. -/
def fetchBBBFails : Str → Lookup := fun s =>
  if s = str "BBB" then ⟨FetchResult.fail, false, 2⟩
  else ⟨FetchResult.ok ⟨s, s, 5, 100⟩, false, 1⟩

/-- Counterexample to C1 as stated: on the three-symbol request
`[AAA, BBB, CCC]` where exactly the second symbol's lookup fails, `Collect`
emits exactly one price sample (for `AAA`), not two — the error `return`
aborts processing of `CCC`. The failure counter and query counter are each
incremented exactly once. -/
theorem collect_partial_failure_counterexample :
    (collect false fetchBBBFails [str "AAA", str "BBB", str "CCC"]).2.samples.length = 1 ∧
    ¬ (collect false fetchBBBFails [str "AAA", str "BBB", str "CCC"]).2.samples.length = 2 ∧
    (collect false fetchBBBFails [str "AAA", str "BBB", str "CCC"]).2.errorIncs = 1 ∧
    (collect false fetchBBBFails [str "AAA", str "BBB", str "CCC"]).1 = 1 := by
  decide

/-- Claim C1 (amended): for every request of three symbols where the first
succeeds and the second's quote lookup fails, `Collect` emits exactly one
price sample (for the first symbol, plus its volume sample when the flag is
set), increments the failure counter by exactly 1 and the query counter by
exactly 1 (not once per symbol); the per-symbol error aborts processing of
the remaining symbols of the request, so the third symbol is never looked
up and yields no sample. -/
theorem collect_partial_failure (vol : Bool) (fetch : Str → Lookup)
    (s1 s2 s3 : Str) (q1 : Quote)
    (h1 : (fetch s1).result = FetchResult.ok q1)
    (h2 : (fetch s2).result = FetchResult.fail) :
    collect vol fetch [s1, s2, s3] =
      (1, ⟨1, [(fetch s1).dur, (fetch s2).dur],
        Sample.price q1.symbol q1.shortName q1.regularMarketPrice ::
          (if vol then [Sample.volume q1.symbol q1.shortName q1.regularMarketVolume]
           else [])⟩) := by
  simp only [collect, collectLoop, h1, h2]

/-- Witness for C1 (amended) at the concrete request `[AAA, BBB, CCC]`. -/
theorem collect_partial_failure_witness :
    (fetchBBBFails (str "AAA")).result = FetchResult.ok ⟨str "AAA", str "AAA", 5, 100⟩ ∧
    (fetchBBBFails (str "BBB")).result = FetchResult.fail ∧
    collect false fetchBBBFails [str "AAA", str "BBB", str "CCC"] =
      (1, ⟨1, [1, 2], [Sample.price (str "AAA") (str "AAA") 5]⟩) :=
  ⟨by decide, by decide,
    collect_partial_failure false fetchBBBFails (str "AAA") (str "BBB") (str "CCC")
      ⟨str "AAA", str "AAA", 5, 100⟩ (by decide) (by decide)⟩

/-! ## Claim C7 -/

/-- The symbols whose lookup is actually performed by the `Collect` loop: all
of them up to and including the first one whose lookup errors. -/
def attempted (fetch : Str → Lookup) : List Str → List Str
  | [] => []
  | sym :: rest =>
    match (fetch sym).result with
    | FetchResult.ok _ => sym :: attempted fetch rest
    | _ => [sym]

/-- Claim C7: for every request and every lookup environment (hence for every
combination of cache hits, misses, errors and durations), the latency
observations of a `Collect` run are exactly, in order, the caller-observed
durations of the lookups it performs — each performed lookup feeds its own
wall-clock duration into the latency distribution exactly once, regardless
of whether it was a hit (`cached` true), a miss, or an error. -/
theorem collect_latency_accounting (vol : Bool) (fetch : Str → Lookup)
    (syms : List Str) :
    (collect vol fetch syms).2.durObs =
      (attempted fetch syms).map (fun s => (fetch s).dur) := by
  show (collectLoop vol fetch syms).durObs = _
  induction syms with
  | nil => rfl
  | cons sym rest ih =>
    simp only [collectLoop, attempted]
    rcases h : (fetch sym).result with _ | _ | _ | q <;> simp [h, ih]

/-- Witness for C7 at the request `[AAA, BBB, CCC]` under the environment
where `BBB` fails: the lookups attempted are `AAA` and `BBB` and their two
durations are the two observations. -/
theorem collect_latency_accounting_witness :
    (collect true fetchBBBFails [str "AAA", str "BBB", str "CCC"]).2.durObs =
      (attempted fetchBBBFails [str "AAA", str "BBB", str "CCC"]).map
        (fun s => (fetchBBBFails s).dur) :=
  collect_latency_accounting true fetchBBBFails [str "AAA", str "BBB", str "CCC"]

/-! ## Claim C8 -/

/-- Recognizer for volume samples. -/
def isVolumeSample : Sample → Bool
  | Sample.volume _ _ _ => true
  | _ => false

/-- Recognizer for price samples. -/
def isPriceSample : Sample → Bool
  | Sample.price _ _ _ => true
  | _ => false

/-- The `(symbol, name)` label values of a sample. -/
def sampleLabels : Sample → Str × Str
  | Sample.price a b _ => (a, b)
  | Sample.volume a b _ => (a, b)

/-- Claim C8: with the volume flag off, `Collect` never emits a volume sample
even when the quote source supplies volume data; with it on, the volume
samples correspond one-to-one, in order and with identical `(symbol, name)`
labels, to the price samples — exactly one volume sample accompanies each
successful price sample. -/
theorem collect_volume_flag (fetch : Str → Lookup) (syms : List Str) :
    (collect false fetch syms).2.samples.filter isVolumeSample = [] ∧
    ((collect true fetch syms).2.samples.filter isVolumeSample).map sampleLabels =
      ((collect true fetch syms).2.samples.filter isPriceSample).map sampleLabels := by
  constructor
  · show (collectLoop false fetch syms).samples.filter isVolumeSample = []
    induction syms with
    | nil => rfl
    | cons sym rest ih =>
      simp only [collectLoop]
      rcases h : (fetch sym).result with _ | _ | _ | q <;>
        simp [h, ih, isVolumeSample]
  · show ((collectLoop true fetch syms).samples.filter isVolumeSample).map sampleLabels =
      ((collectLoop true fetch syms).samples.filter isPriceSample).map sampleLabels
    induction syms with
    | nil => rfl
    | cons sym rest ih =>
      simp only [collectLoop]
      rcases h : (fetch sym).result with _ | _ | _ | q <;>
        simp [h, ih, isVolumeSample, isPriceSample, sampleLabels]

/-- Witness for C8 at the one-symbol request `[AAA]` under the environment
where `BBB` fails (so `AAA` succeeds and carries volume data). -/
theorem collect_volume_flag_witness :
    (collect false fetchBBBFails [str "AAA"]).2.samples.filter isVolumeSample = [] ∧
    ((collect true fetchBBBFails [str "AAA"]).2.samples.filter isVolumeSample).map
        sampleLabels =
      ((collect true fetchBBBFails [str "AAA"]).2.samples.filter isPriceSample).map
        sampleLabels :=
  collect_volume_flag fetchBBBFails [str "AAA"]

/-! ## Memoizing Cache

The cache used by `Collect` is `memoize.NewMemoizer(10*time.Minute,
20*time.Minute)` from the `go-memoize` dependency (src/collector.go declares
and calls it, but the memoizer's own code is not under src/), so the cache
semantics is modelled from the specification, §4.2: `lookup(key, computeFn)`
returns `(value, isFromCache, error)`; a miss (no entry, or entry past its
freshness window) invokes `computeFn` synchronously, stores the outcome —
success or failure alike — with a fresh `computedAt`, and returns it with
`isFromCache=false`; a hit within the freshness window returns the stored
outcome with `isFromCache=true` and performs no upstream call. Time is an
explicit rational-valued clock; the compute function is represented by its
outcome, with an `invoked` flag recording whether it was called. -/

/-- Modelled from the spec: one stored cache outcome — the computed
result-or-error and the time it was computed. (The hard-expire bound governs
eviction only and is not needed for the freshness-window claims.) -/
structure CacheEntry (α : Type) where
  outcome : Except Str α
  computedAt : ℚ

/-- Modelled from the spec: the cache's key→entry store. Later entries
shadow earlier ones for the same key. -/
structure CacheState (α : Type) where
  entries : List (Str × CacheEntry α)

/-- The current entry for a key, if any. -/
def findEntry {α : Type} (st : CacheState α) (k : Str) : Option (CacheEntry α) :=
  (st.entries.find? (fun p => decide (p.1 = k))).map Prod.snd

/-- Result of one cache lookup: the returned value, the `isFromCache` flag,
the cache state afterwards, and whether the compute function was invoked. -/
structure LookupOut (α : Type) where
  value : Except Str α
  isFromCache : Bool
  state : CacheState α
  invoked : Bool

/-- Modelled from the spec: `lookup(key, computeFn)` of the memoizing cache
(`cache.Memoize` of the go-memoize dependency, whose source is not under
src/). `freshFor` is the freshness window, `now` the current clock, and
`compute` the outcome the compute function would produce if invoked. -/
def lookup {α : Type} (freshFor now : ℚ) (st : CacheState α) (k : Str)
    (compute : Except Str α) : LookupOut α :=
  match findEntry st k with
  | some e =>
    if now < e.computedAt + freshFor then
      ⟨e.outcome, true, st, false⟩
    else
      ⟨compute, false, ⟨(k, ⟨compute, now⟩) :: st.entries⟩, true⟩
  | none => ⟨compute, false, ⟨(k, ⟨compute, now⟩) :: st.entries⟩, true⟩

/-- A freshly inserted entry is found at its key. -/
theorem findEntry_cons_self {α : Type} (k : Str) (e : CacheEntry α)
    (l : List (Str × CacheEntry α)) : findEntry ⟨(k, e) :: l⟩ k = some e := by
  simp [findEntry]

/-! ## Claim C2 -/

/-- Claim C2: cache idempotence and rate limiting. For every key `k`, every
starting cache state and every pair of candidate compute outcomes, calling
`lookup` twice in immediate succession (same clock value, positive freshness
window) invokes the compute function at most once: the second call never
invokes it (so at most the first call does — at most one upstream call per
distinct key per freshness window), returns `isFromCache = true`, and
returns a value equal to the first call's value. -/
theorem lookup_idempotent {α : Type} (freshFor now : ℚ) (st : CacheState α)
    (k : Str) (f1 f2 : Except Str α) (hfresh : 0 < freshFor) :
    (lookup freshFor now (lookup freshFor now st k f1).state k f2).invoked = false ∧
    (lookup freshFor now (lookup freshFor now st k f1).state k f2).isFromCache = true ∧
    (lookup freshFor now (lookup freshFor now st k f1).state k f2).value =
      (lookup freshFor now st k f1).value := by
  rcases h : findEntry st k with _ | e
  · simp only [lookup, h, findEntry_cons_self]
    rw [if_pos (by linarith)]
    exact ⟨rfl, rfl, rfl⟩
  · by_cases hf : now < e.computedAt + freshFor
    · simp only [lookup, h]
      rw [if_pos hf]
      simp only [lookup, h]
      rw [if_pos hf]
      exact ⟨rfl, rfl, rfl⟩
    · simp only [lookup, h]
      rw [if_neg hf]
      simp only [lookup, findEntry_cons_self]
      rw [if_pos (by linarith)]
      exact ⟨rfl, rfl, rfl⟩

/-- Witness for C2: key `"A"`, empty cache, first compute returns 42, second
candidate returns 7; the second call is served from the cache with value 42
and does not invoke its compute function. -/
theorem lookup_idempotent_witness :
    (0 : ℚ) < 1 ∧
    ((lookup 1 0 (lookup 1 0 (⟨[]⟩ : CacheState ℕ) (str "A") (Except.ok 42)).state
        (str "A") (Except.ok 7)).invoked = false ∧
      (lookup 1 0 (lookup 1 0 (⟨[]⟩ : CacheState ℕ) (str "A") (Except.ok 42)).state
        (str "A") (Except.ok 7)).isFromCache = true ∧
      (lookup 1 0 (lookup 1 0 (⟨[]⟩ : CacheState ℕ) (str "A") (Except.ok 42)).state
        (str "A") (Except.ok 7)).value =
        (lookup 1 0 (⟨[]⟩ : CacheState ℕ) (str "A") (Except.ok 42)).value) :=
  ⟨by norm_num,
    lookup_idempotent 1 0 (⟨[]⟩ : CacheState ℕ) (str "A")
      (Except.ok 42) (Except.ok 7) (by norm_num)⟩

/-! ## Claim C6 -/

/-- Claim C6: negative caching. For every key with no current cache entry
whose compute function fails, `lookup` invokes the compute function, returns
its error, and stores the failure outcome; a repeated lookup of the same key
within the freshness window is served from the cache (`isFromCache = true`),
returns the same error, and does not invoke the compute function again. -/
theorem lookup_negative_caching {α : Type} (freshFor now : ℚ)
    (st : CacheState α) (k msg : Str) (f2 : Except Str α)
    (hfresh : 0 < freshFor) (habsent : findEntry st k = none) :
    (lookup freshFor now st k (Except.error msg)).invoked = true ∧
    (lookup freshFor now st k (Except.error msg)).value = Except.error msg ∧
    findEntry (lookup freshFor now st k (Except.error msg)).state k =
      some ⟨Except.error msg, now⟩ ∧
    (lookup freshFor now (lookup freshFor now st k (Except.error msg)).state k
        f2).invoked = false ∧
    (lookup freshFor now (lookup freshFor now st k (Except.error msg)).state k
        f2).isFromCache = true ∧
    (lookup freshFor now (lookup freshFor now st k (Except.error msg)).state k
        f2).value = Except.error msg := by
  have hlt : now < now + freshFor := by linarith
  simp [lookup, habsent, findEntry_cons_self, hlt]

/-- Witness for C6: key `"Z"` on an empty cache with a failing compute. -/
theorem lookup_negative_caching_witness :
    ((0 : ℚ) < 1 ∧ findEntry (⟨[]⟩ : CacheState ℕ) (str "Z") = none) ∧
    ((lookup 1 0 (⟨[]⟩ : CacheState ℕ) (str "Z") (Except.error (str "boom"))).invoked = true ∧
      (lookup 1 0 (⟨[]⟩ : CacheState ℕ) (str "Z") (Except.error (str "boom"))).value =
        Except.error (str "boom") ∧
      findEntry (lookup 1 0 (⟨[]⟩ : CacheState ℕ) (str "Z")
          (Except.error (str "boom"))).state (str "Z") =
        some ⟨Except.error (str "boom"), 0⟩ ∧
      (lookup 1 0 (lookup 1 0 (⟨[]⟩ : CacheState ℕ) (str "Z")
          (Except.error (str "boom"))).state (str "Z") (Except.ok 7)).invoked = false ∧
      (lookup 1 0 (lookup 1 0 (⟨[]⟩ : CacheState ℕ) (str "Z")
          (Except.error (str "boom"))).state (str "Z") (Except.ok 7)).isFromCache = true ∧
      (lookup 1 0 (lookup 1 0 (⟨[]⟩ : CacheState ℕ) (str "Z")
          (Except.error (str "boom"))).state (str "Z") (Except.ok 7)).value =
        Except.error (str "boom")) :=
  ⟨⟨by norm_num, rfl⟩,
    lookup_negative_caching 1 0 (⟨[]⟩ : CacheState ℕ) (str "Z") (str "boom")
      (Except.ok 7) (by norm_num) rfl⟩

/-! ## stonks quote source (`Quote`, src/stonks/stonks.go) -/

/-- The numeric value of a string of decimal digits, most significant
first. -/
def digitsToNat (ds : Str) : ℕ :=
  ds.foldl (fun acc c => 10 * acc + (c.toNat - '0'.toNat)) 0

/-- `10^n` as a rational, by structural recursion. -/
def qpow10 : ℕ → ℚ
  | 0 => 1
  | n + 1 => 10 * qpow10 n

/-- `10^e` for an integer exponent, as a rational. -/
def pow10 (e : ℤ) : ℚ :=
  if 0 ≤ e then qpow10 e.toNat else 1 / qpow10 (-e).toNat

/-- A parsed Go `float64`: the exact signed decimal mantissa and
power-of-ten exponent read from the string, representing the value
`m * 10^e` (see `GoFloat.toRat`). The pair is kept unnormalized so that all
computation stays in `ℤ`; the represented value is zero exactly when `m`
is zero. -/
structure GoFloat where
  m : ℤ
  e : ℤ
  deriving DecidableEq, Repr

/-- The real value represented by a parsed float. -/
def GoFloat.toRat (d : GoFloat) : ℚ := (d.m : ℚ) * pow10 d.e

/-- The float value `0`, as returned by the Go function on its error
paths. -/
def GoFloat.zero : GoFloat := ⟨0, 0⟩

/-- `strconv.ParseFloat(s, 64)` restricted to plain decimal syntax, with the
decimal value taken exactly: optional sign, then a mantissa holding at least
one digit (`ddd`, `ddd.`, `ddd.ddd` or `.ddd`), then an optional exponent
`e|E [sign] digits`; the entire string must be consumed. Not modelled: the
special spellings inf/infinity/nan, hexadecimal floats, digit-separating
underscores, and the rounding of the decimal value to the nearest binary
float64 (in particular a decimal whose magnitude underflows float64 is kept
as its tiny nonzero exact value rather than Go's rounded-to-zero result). -/
def parseGoFloat (s : Str) : Option GoFloat :=
  let sgns : ℤ × Str :=
    match s with
    | '+' :: r => (1, r)
    | '-' :: r => (-1, r)
    | r => (1, r)
  let s1 := sgns.2
  let ip := s1.takeWhile Char.isDigit
  let s2 := s1.dropWhile Char.isDigit
  let fps : Str × Str :=
    match s2 with
    | '.' :: r => (r.takeWhile Char.isDigit, r.dropWhile Char.isDigit)
    | r => ([], r)
  let fp := fps.1
  let s3 := fps.2
  if ip.length + fp.length = 0 then none
  else
    let m : ℤ := sgns.1 * (digitsToNat (ip ++ fp) : ℤ)
    match s3 with
    | [] => some ⟨m, -(fp.length : ℤ)⟩
    | c :: r =>
      if c = 'e' ∨ c = 'E' then
        let esgns : ℤ × Str :=
          match r with
          | '+' :: rr => (1, rr)
          | '-' :: rr => (-1, rr)
          | rr => (1, rr)
        let ed := esgns.2.takeWhile Char.isDigit
        let rest := esgns.2.dropWhile Char.isDigit
        if ed = [] ∨ rest ≠ [] then none
        else some ⟨m, -(fp.length : ℤ) + esgns.1 * (digitsToNat ed : ℤ)⟩
      else none

/-- `strings.ToUpper`, restricted to the ASCII simple case mapping (the
symbols at issue are ASCII tickers). -/
def goToUpper (s : Str) : Str := s.map Char.toUpper

/-- `strings.TrimRight(s, "\r\n")`. -/
def trimRightNewlines (s : Str) : Str :=
  (s.reverse.dropWhile (fun c => decide (c = '\r' ∨ c = '\n'))).reverse

/-- `strings.Trim(s, cutset)` for a cutset given as a character list. -/
def trimCutset (cut : Str) (s : Str) : Str :=
  ((s.dropWhile (fun c => decide (c ∈ cut))).reverse.dropWhile
    (fun c => decide (c ∈ cut))).reverse

/-- The line `Quote` parses: the first `\n`-separated line of the response
body with trailing CR/LF trimmed. -/
def stonksLine (body : Str) : Str :=
  trimRightNewlines ((splitChar '\n' body).headD [])

/-- The price token `Quote` parses out of the response body:
`strings.Trim(tok[1], "$,")` where `tok` is the space-split of the first
line. (`tok[1]` is read only after the length check, so the default for a
missing index is never exercised.) -/
def priceToken (body : Str) : Str :=
  trimCutset (str "$,") ((splitChar ' ' (stonksLine body)).getD 1 [])

/-- Embedding of `Quote` from src/stonks/stonks.go. The transport phase
(`http.Get` and reading the body) is the `Except Str Str` input: an error is
a transport failure, `ok body` the retrieved body. The Go function returns
`(float64, error)`; here the float is the parsed decimal (`GoFloat`) and
the error is `Option Str` with `none` standing for a nil error. The
error-message strings abbreviate the Go `fmt.Errorf` texts (the
interpolated payloads are dropped). -/
def stonksQuote (symbol : Str) (resp : Except Str Str) : GoFloat × Option Str :=
  let symbolU := goToUpper symbol
  match resp with
  | Except.error e => (GoFloat.zero, some e)
  | Except.ok body =>
    let result := stonksLine body
    if result = [] then (GoFloat.zero, some (str "empty results from upstream"))
    else if (symbolU ++ [':']).isPrefixOf result = false then
      (GoFloat.zero, some (str "missing symbol name on output (invalid symbol?)"))
    else if (splitChar ' ' result).length < 2 then
      (GoFloat.zero, some (str "error parsing quote results"))
    else
      match parseGoFloat (priceToken body) with
      | none => (GoFloat.zero, some (str "invalid syntax"))
      | some val =>
        if val.m = 0 then (GoFloat.zero, some (str "query returned price=0"))
        else (val, none)

/-! ## Claim C9 -/

/-- The conditions under which `stonksQuote` succeeds: the transport
succeeded, the (CR/LF-trimmed) first line of the body starts with the
uppercased input symbol followed by `:`, the line has a second
space-separated token, and that token, after trimming `$` and `,`, parses
as a float of nonzero value, which is returned as the price. -/
def stonksSuccess (symbol : Str) (resp : Except Str Str) : Prop :=
  ∃ body v, resp = Except.ok body ∧
    (goToUpper symbol ++ [':']).isPrefixOf (stonksLine body) = true ∧
    2 ≤ (splitChar ' ' (stonksLine body)).length ∧
    parseGoFloat (priceToken body) = some v ∧
    v.m ≠ 0 ∧ (stonksQuote symbol resp).1 = v

/-- Claim C9: `stonks.Quote` returns a nil error only when the first line of
the response body begins with the uppercased input symbol followed by `:`
and contains a second space-separated token that, after trimming `$` and
`,`, parses as a float64 of nonzero value, which it returns as the price;
on every error path (transport failure, empty result, missing symbol, too
few tokens, parse failure, zero value) it returns the value 0 together with
a non-nil error. -/
theorem stonksQuote_success_conditions (symbol : Str) (resp : Except Str Str) :
    ((stonksQuote symbol resp).2 = none → stonksSuccess symbol resp) ∧
    ((stonksQuote symbol resp).2 ≠ none →
      (stonksQuote symbol resp).1 = GoFloat.zero) := by
  cases resp with
  | error e =>
    refine ⟨fun h => ?_, fun _ => rfl⟩
    simp [stonksQuote] at h
  | ok body =>
    by_cases h1 : stonksLine body = []
    · constructor
      · intro h
        simp [stonksQuote, h1] at h
      · intro _
        simp [stonksQuote, h1]
    · by_cases h2 : (goToUpper symbol ++ [':']).isPrefixOf (stonksLine body) = false
      · constructor
        · intro h
          simp [stonksQuote, h1, h2] at h
        · intro _
          simp [stonksQuote, h1, h2]
      · by_cases h3 : (splitChar ' ' (stonksLine body)).length < 2
        · constructor
          · intro h
            simp [stonksQuote, h1, h2, h3] at h
          · intro _
            simp [stonksQuote, h1, h2, h3]
        · rcases h4 : parseGoFloat (priceToken body) with _ | v
          · constructor
            · intro h
              simp [stonksQuote, h1, h2, h3, h4] at h
            · intro _
              simp [stonksQuote, h1, h2, h3, h4]
          · by_cases h5 : v.m = 0
            · constructor
              · intro h
                simp [stonksQuote, h1, h2, h3, h4, h5] at h
              · intro _
                simp [stonksQuote, h1, h2, h3, h4, h5]
            · constructor
              · intro _
                refine ⟨body, v, rfl, ?_, by omega, h4, h5, ?_⟩
                · simpa using h2
                · simp [stonksQuote, h1, h2, h3, h4, h5]
              · intro hne
                exfalso
                exact hne (by simp [stonksQuote, h1, h2, h3, h4, h5])

/-- Witness for C9: a successful lookup of `amd` against the body
`AMD: $12.50 +1.0%`, and an error path returning 0. -/
theorem stonksQuote_success_conditions_witness :
    stonksSuccess (str "amd") (Except.ok (str "AMD: $12.50 +1.0%")) ∧
    (stonksQuote (str "amd") (Except.error (str "dial tcp timeout"))).1 =
      GoFloat.zero :=
  ⟨(stonksQuote_success_conditions (str "amd")
      (Except.ok (str "AMD: $12.50 +1.0%"))).1 (by decide),
    (stonksQuote_success_conditions (str "amd")
      (Except.error (str "dial tcp timeout"))).2 (by simp [stonksQuote])⟩

/-! ## Claim C5 -/

/-- Counterexample to C5 as stated: a successful `stonks.Quote` price is not
always a non-negative number. For the body `AMD: $-5.00 +1.0%` the function
returns the price `-5.00` (mantissa `-500`, exponent `-2`, value `-5`) with
a nil error, so the invariant "price, when present in a successful
QuoteResult, is a finite non-negative real" fails on the code. -/
theorem stonks_negative_price_counterexample :
    stonksQuote (str "AMD") (Except.ok (str "AMD: $-5.00 +1.0%")) =
      (⟨-500, -2⟩, none) ∧
    (stonksQuote (str "AMD") (Except.ok (str "AMD: $-5.00 +1.0%"))).1.toRat =
      -5 ∧
    (stonksQuote (str "AMD") (Except.ok (str "AMD: $-5.00 +1.0%"))).1.toRat
      < 0 := by
  have h : stonksQuote (str "AMD") (Except.ok (str "AMD: $-5.00 +1.0%")) =
      (⟨-500, -2⟩, none) := by decide
  have hv : (stonksQuote (str "AMD")
      (Except.ok (str "AMD: $-5.00 +1.0%"))).1.toRat = -5 := by
    rw [h]
    simp [GoFloat.toRat, pow10, qpow10]
    norm_num
  refine ⟨h, hv, by rw [hv]; norm_num⟩

/-- A lookup environment whose every lookup fails. -/
def fetchAlwaysFails : Str → Lookup := fun _ => ⟨FetchResult.fail, false, 3⟩

/-- Claim C5 (amended): a quote whose price token parses to exactly 0 is
treated identically to an upstream error — `stonks.Quote` returns value 0
with a non-nil error; in `Collect`, a symbol whose lookup errors yields no
price sample and exactly one failure-counter increment; and a price in a
successful `stonks.Quote` result is never exactly zero, though it need not
be non-negative (see the counterexample). -/
theorem stonks_zero_price_rejected (symbol body sym : Str) (vol : Bool)
    (fetch : Str → Lookup) (rest : List Str) (resp : Except Str Str)
    (v : GoFloat) (hzero : parseGoFloat (priceToken body) = some v)
    (hm : v.m = 0) (herr : (fetch sym).result = FetchResult.fail) :
    ((stonksQuote symbol (Except.ok body)).2 ≠ none ∧
      (stonksQuote symbol (Except.ok body)).1 = GoFloat.zero) ∧
    collectLoop vol fetch (sym :: rest) = ⟨1, [(fetch sym).dur], []⟩ ∧
    ((stonksQuote symbol resp).2 = none → (stonksQuote symbol resp).1.m ≠ 0) := by
  refine ⟨?_, ?_, ?_⟩
  · by_cases h1 : stonksLine body = []
    · simp [stonksQuote, h1]
    · by_cases h2 : (goToUpper symbol ++ [':']).isPrefixOf (stonksLine body) = false
      · simp [stonksQuote, h1, h2]
      · by_cases h3 : (splitChar ' ' (stonksLine body)).length < 2
        · simp [stonksQuote, h1, h2, h3]
        · simp [stonksQuote, h1, h2, h3, hzero, hm]
  · simp only [collectLoop, herr]
  · intro hnone
    rcases (stonksQuote_success_conditions symbol resp).1 hnone with
      ⟨b, w, _, _, _, _, hw, hval⟩
    rw [hval]
    exact hw

/-- Witness for C5 (amended): body `AMD: $0.00 +0.0%` carries price token
`$0.00`, which parses to a zero value; an erroring lookup of `AMD` in the
collector loop; and the successful-price-nonzero conjunct instantiated at
the body `AMD: $12.50 +1.0%`. -/
theorem stonks_zero_price_rejected_witness :
    (parseGoFloat (priceToken (str "AMD: $0.00 +0.0%")) = some ⟨0, -2⟩ ∧
      (⟨0, -2⟩ : GoFloat).m = 0 ∧
      (fetchAlwaysFails (str "AMD")).result = FetchResult.fail) ∧
    (((stonksQuote (str "AMD") (Except.ok (str "AMD: $0.00 +0.0%"))).2 ≠ none ∧
        (stonksQuote (str "AMD") (Except.ok (str "AMD: $0.00 +0.0%"))).1 =
          GoFloat.zero) ∧
      collectLoop false fetchAlwaysFails [str "AMD"] =
        ⟨1, [(fetchAlwaysFails (str "AMD")).dur], []⟩ ∧
      ((stonksQuote (str "AMD") (Except.ok (str "AMD: $12.50 +1.0%"))).2 = none →
        (stonksQuote (str "AMD") (Except.ok (str "AMD: $12.50 +1.0%"))).1.m ≠ 0)) :=
  ⟨⟨by decide, by decide, by decide⟩,
    stonks_zero_price_rejected (str "AMD") (str "AMD: $0.00 +0.0%") (str "AMD")
      false fetchAlwaysFails [] (Except.ok (str "AMD: $12.50 +1.0%"))
      ⟨0, -2⟩ (by decide) (by decide) (by decide)⟩

/-! ## WorldTradingData JSON decoding (`getAssetsFromWTD`, src/main.go) -/

/-- Decoded JSON values, as produced by `encoding/json` into
`interface{}`: null, booleans, numbers, strings, arrays and objects. -/
inductive JSON where
  | null
  | bool (b : Bool)
  | num (q : ℚ)
  | str (s : Str)
  | arr (elems : List JSON)
  | obj (fields : List (Str × JSON))

/-- Lookup of a key in a decoded JSON object (`webdata["data"]`). -/
def jsonLookup (fields : List (Str × JSON)) (k : Str) : Option JSON :=
  (fields.find? (fun p => decide (p.1 = k))).map Prod.snd

/-- Outcome of a Go function that can also panic: a returned value, a
returned error, or a run-time panic (here: a failed unchecked type
assertion). -/
inductive GoResult (α : Type) where
  | ok (val : α)
  | err (msg : Str)
  | panics

/-- The inner loop of `getAssetsFromWTD`: `item[k] = v.(string)` over the
fields of one `data` element — any non-string attribute value makes the
unchecked type assertion panic. -/
def assetFields : List (Str × JSON) → GoResult (List (Str × Str))
  | [] => GoResult.ok []
  | (k, JSON.str s) :: rest =>
    match assetFields rest with
    | GoResult.ok items => GoResult.ok ((k, s) :: items)
    | GoResult.err m => GoResult.err m
    | GoResult.panics => GoResult.panics
  | (_, _) :: _ => GoResult.panics

/-- The outer loop of `getAssetsFromWTD`: `kv := d.(map[string]interface{})`
over the elements of `data` — any non-object element makes the unchecked
type assertion panic. -/
def assetList : List JSON → GoResult (List (List (Str × Str)))
  | [] => GoResult.ok []
  | JSON.obj kv :: rest =>
    match assetFields kv with
    | GoResult.ok item =>
      match assetList rest with
      | GoResult.ok items => GoResult.ok (item :: items)
      | GoResult.err m => GoResult.err m
      | GoResult.panics => GoResult.panics
    | GoResult.err m => GoResult.err m
    | GoResult.panics => GoResult.panics
  | _ :: _ => GoResult.panics

/-- Embedding of `getAssetsFromWTD` (src/main.go) from the point where the
response body has been decoded by `json.Unmarshal` into
`map[string]interface{}` (the HTTP call, read and decode failures all return
ordinary errors before this point and are not at issue): reject a missing or
null `data` key, then run the unchecked type assertions
`webdata["data"].([]interface{})`, `d.(map[string]interface{})` and
`v.(string)`. -/
def getAssetsFromWTD (webdata : List (Str × JSON)) :
    GoResult (List (List (Str × Str))) :=
  match jsonLookup webdata (str "data") with
  | none => GoResult.err (str "invalid json response")
  | some JSON.null => GoResult.err (str "invalid json response")
  | some (JSON.arr ds) => assetList ds
  | some _ => GoResult.panics

/-! ## Claim C10 -/

/-- Claim C10: `getAssetsFromWTD` panics (instead of returning an error) on
upstream responses that decode successfully and hold a non-nil `data` key
whose shape defeats the unchecked type assertions: `data` a string rather
than an array, an element of `data` a number rather than an object, and an
attribute value a JSON number rather than a string. A well-shaped response
is decoded successfully, showing the panic is shape-specific. -/
theorem getAssetsFromWTD_panics :
    getAssetsFromWTD [(str "data", JSON.str (str "oops"))] = GoResult.panics ∧
    getAssetsFromWTD [(str "data", JSON.arr [JSON.num 3])] = GoResult.panics ∧
    getAssetsFromWTD
        [(str "data", JSON.arr [JSON.obj [(str "price", JSON.num (1438 / 100))]])] =
      GoResult.panics ∧
    getAssetsFromWTD
        [(str "data", JSON.arr [JSON.obj [(str "price", JSON.str (str "14.38"))]])] =
      GoResult.ok [[(str "price", str "14.38")]] :=
  ⟨rfl, rfl, rfl, rfl⟩

end QuotesExporter
